/-
Verification of the Upload Coordinator backend (src/backend/src/server.ts,
src/backend/src/middleware/security = src/unnamed/part_004, and the variant
server in src/unnamed/part_003) against its natural-language specification.

The server state is embedded shallowly:
  * the in-memory `uploadStore` JS object is an association list keyed by
    `"upload:" ++ uploadId` (key update overwrites; iteration order of the
    JS object is not relied on by any property proved here);
  * the chunks directory and the final directory are lists of named files
    with byte contents (bytes as `Nat`) and an mtime in milliseconds;
  * wall-clock time (`Date.now()`) is passed explicitly as a `now : Nat`
    argument to every operation;
  * floating-point bookkeeping (`uploadSpeed`, `progress` percentages) is
    derived presentation data never read by any control decision in the
    source, and is omitted from the record.
-/
import Mathlib

namespace UploadServer

/-- One file in a directory: name, byte contents, and mtime (ms). -/
structure FileEntry where
  name : String
  bytes : List Nat
  mtime : Nat
  deriving Repr, DecidableEq

/-- A session record of the in-memory `uploadStore` (server.ts lines 191-200,
233-243).  `fileSize` is `Number(fileSize)` from the init body; `status` is
the literal string stored by the code (`"in_progress"` / `"completed"`).
The floating-point `uploadSpeed` field is omitted (derived metric, never read
by any decision in the source). -/
structure UploadInfo where
  fileName : String
  fileSize : Int
  totalChunks : Nat
  uploadedChunks : Nat
  status : String
  startTime : Nat
  endTime : Option Nat
  deriving Repr, DecidableEq

/-- The whole server state: the `uploadStore` object, the staging chunks
directory `CHUNKS_DIR` and the final directory `FINAL_DIR`. -/
structure ServerState where
  uploadStore : List (String × UploadInfo)
  chunkFiles : List FileEntry
  finalFiles : List FileEntry
  deriving Repr, DecidableEq

def emptyState : ServerState := ⟨[], [], []⟩

/-- `` `upload:${uploadId}` `` — the store key for a session. -/
def storeKey (uploadId : String) : String := "upload:" ++ uploadId

/-- `` `${uploadId}-${chunkIndex}` `` — the staging file name for a chunk
(server.ts line 227). -/
def chunkFileName (uploadId : String) (idx : Nat) : String :=
  uploadId ++ "-" ++ toString idx

/-- JS object read `uploadStore[key]`. -/
def storeGet : List (String × UploadInfo) → String → Option UploadInfo
  | [], _ => none
  | p :: t, k => if p.1 = k then some p.2 else storeGet t k

/-- JS `delete uploadStore[key]`: the binding for that key is removed. -/
def storeErase : List (String × UploadInfo) → String → List (String × UploadInfo)
  | [], _ => []
  | p :: t, k => if p.1 = k then storeErase t k else p :: storeErase t k

/-- JS object write `uploadStore[key] = v` (overwrite or insert; no property
proved here depends on the iteration order of the store). -/
def storeSet (st : List (String × UploadInfo)) (k : String) (v : UploadInfo) :
    List (String × UploadInfo) :=
  (k, v) :: storeErase st k

/-- `fs.promises.writeFile`: replace the contents of an existing file of that
name, or create the file; mtime becomes the write time. -/
def writeFile : List FileEntry → String → List Nat → Nat → List FileEntry
  | [], nm, bs, now => [⟨nm, bs, now⟩]
  | f :: t, nm, bs, now =>
    if f.name = nm then ⟨nm, bs, now⟩ :: t else f :: writeFile t nm bs now

/-- `fs.promises.readFile`: `none` models the rejected promise for a missing
file. -/
def readFile : List FileEntry → String → Option (List Nat)
  | [], _ => none
  | f :: t, nm => if f.name = nm then some f.bytes else readFile t nm

/-- JS `String.prototype.startsWith`, used by the readdir filters
(server.ts lines 285, 482). -/
def strStartsWith (s p : String) : Bool := p.data.isPrefixOf s.data

/-! ## The security middleware (src/unnamed/part_004) -/

/-- The multer file part of a chunk request (`req.file`); `size` is the
buffer length. -/
structure FilePart where
  originalname : String
  mimetype : String
  bytes : List Nat
  deriving Repr, DecidableEq

/-- A request to `POST /api/upload/chunk/:uploadId`.  `fileType` models
`req.body.fileType` (`none` = absent), `bodyFileSize` models
`req.body.fileSize` (absent on this route per the interface contract, kept
for fidelity of `fileSizeValidator`), `file` models `req.file`. -/
structure ChunkRequest where
  chunkIndex : Nat
  totalChunks : Nat
  fileType : Option String
  bodyFileSize : Option Nat
  file : Option FilePart
  deriving Repr, DecidableEq

/-- Outcome of the chunk route, middleware included. -/
inductive ChunkResult where
  | badRequest (msg : String)
  | notFound
  | insufficientSpace
  | serverError
  | ok
  deriving Repr, DecidableEq

/-- JS `a || b` on string-valued fields: the empty string is falsy. -/
def jsOrStr (a b : Option String) : Option String :=
  match a with
  | some s => if s = "" then b else some s
  | none => b

/-- JS `a || b` on number-valued fields: `0` is falsy. -/
def jsOrNat (a b : Option Nat) : Option Nat :=
  match a with
  | some n => if n = 0 then b else some n
  | none => b

def allowedTypes : List String :=
  ["image/jpeg", "image/png", "image/gif", "video/mp4", "video/webm",
   "application/pdf", "text/plain", "application/octet-stream"]

/-- `fileTypeValidator` (part_004 lines 29-61):
`fileType = req.body.fileType || req.file?.mimetype`; 400 when falsy or not
in the allow-set.  `none` = pass to next middleware. -/
def fileTypeValidator (req : ChunkRequest) : Option ChunkResult :=
  match jsOrStr req.fileType ((req.file).map (·.mimetype)) with
  | none => some (.badRequest "No file type provided")
  | some t =>
    if t = "" then some (.badRequest "No file type provided")
    else if allowedTypes.contains t then none
    else some (.badRequest "Invalid file type")

def MAX_FILE_SIZE : Nat := 100 * 1024 * 1024

/-- `fileSizeValidator` (part_004 lines 64-73):
`fileSize = req.body.fileSize || req.file?.size`; 400 when falsy or above
100 MiB. -/
def fileSizeValidator (req : ChunkRequest) : Option ChunkResult :=
  match jsOrNat req.bodyFileSize ((req.file).map (·.bytes.length)) with
  | none => some (.badRequest "File size exceeds limit")
  | some n =>
    if n = 0 then some (.badRequest "File size exceeds limit")
    else if MAX_FILE_SIZE < n then some (.badRequest "File size exceeds limit")
    else none

/-- The magic-number table of part_004 lines 121-127. -/
def magicNumbers : List (String × List Nat) :=
  [("jpeg", [0xFF, 0xD8, 0xFF]),
   ("png", [0x89, 0x50, 0x4E, 0x47]),
   ("gif", [0x47, 0x49, 0x46, 0x38]),
   ("mp4", [0x00, 0x00, 0x00, 0x20, 0x66, 0x74, 0x79, 0x70]),
   ("webm", [0x1A, 0x45, 0xDF, 0xA3])]

/-- JS `String.prototype.split(c)` on the character list: splits at every
occurrence of `c`, keeping empty pieces, like `"a/b".split('/')`. -/
def splitOnCharAux (c : Char) : List Char → List Char → List (List Char)
  | [], cur => [cur.reverse]
  | x :: xs, cur =>
    if x = c then cur.reverse :: splitOnCharAux c xs []
    else splitOnCharAux c xs (x :: cur)

/-- `mimetype.split('/')[1]` (part_004 line 129): the second piece, or JS
`undefined` (`none`) when the mimetype has no `/`. -/
def mimeSubtype (m : String) : Option String :=
  ((splitOnCharAux '/' m.data []).map (fun l => String.mk l)).get? 1

/-- `magicNumbers[fileType]` where `fileType = mimetype.split('/')[1]`;
an absent entry (or absent subtype) is JS `undefined`, i.e. `none`. -/
def magicOf (sub : Option String) : Option (List Nat) :=
  match sub with
  | none => none
  | some s => (magicNumbers.find? (fun p => p.1 = s)).map (·.2)

/-- `maliciousFileDetector` (part_004 lines 115-141): skipped without a file;
otherwise looks up the magic bytes for `req.file.mimetype.split('/')[1]` and,
when a rule exists, 400s unless `buffer.slice(0, len)` equals it.  Note the
chunk index is never consulted. -/
def maliciousFileDetector (req : ChunkRequest) : Option ChunkResult :=
  match req.file with
  | none => none
  | some f =>
    match magicOf (mimeSubtype f.mimetype) with
    | none => none
    | some mg =>
      if f.bytes.take mg.length = mg then none
      else some (.badRequest "Invalid file format")

/-- The middleware chain of the chunk route (server.ts lines 211-214):
`fileTypeValidator`, `fileSizeValidator`, `maliciousFileDetector`,
short-circuiting on the first rejection. -/
def chunkMiddleware (req : ChunkRequest) : Option ChunkResult :=
  match fileTypeValidator req with
  | some r => some r
  | none =>
    match fileSizeValidator req with
    | some r => some r
    | none => maliciousFileDetector req

/-! ## The routes of src/backend/src/server.ts -/

inductive InitResult where
  | ok (uploadId : String)
  deriving Repr, DecidableEq

/-- `POST /api/upload/init` (server.ts lines 186-208).  The handler performs
no validation of the declared fields: it always creates a fresh record with
status `"in_progress"` and responds 200 `{uploadId}`.  `uploadId` stands for
the value of `crypto.randomUUID()`. -/
def initUpload (s : ServerState) (uploadId fileName : String) (fileSize : Int)
    (totalChunks : Nat) (now : Nat) : ServerState × InitResult :=
  ({ s with uploadStore := (storeSet s.uploadStore (storeKey uploadId)
      ⟨fileName, fileSize, totalChunks, 0, "in_progress", now, none⟩) },
   .ok uploadId)

/-- `trackUploadProgress` (server.ts lines 51-94): when the session exists
and its acknowledgement counter equals `totalChunks`, mark the record
completed and set `endTime`; otherwise do nothing.  It never writes any
file. -/
def trackUploadProgress (s : ServerState) (uploadId : String) (now : Nat) :
    ServerState :=
  match storeGet s.uploadStore (storeKey uploadId) with
  | none => s
  | some info =>
    if info.uploadedChunks = info.totalChunks then
      { s with uploadStore := (storeSet s.uploadStore (storeKey uploadId)
          { info with status := "completed", endTime := some now }) }
    else s

/-- `POST /api/upload/chunk/:uploadId` (server.ts lines 210-270) behind the
middleware chain.  The handler writes the staging file, creates a store
entry from the chunk metadata when the uploadId is unknown, increments the
acknowledgement counter unconditionally, and calls `trackUploadProgress`
when the counter reaches the stored `totalChunks`. -/
def putChunk (s : ServerState) (uploadId : String) (req : ChunkRequest)
    (now : Nat) : ServerState × ChunkResult :=
  match chunkMiddleware req with
  | some err => (s, err)
  | none =>
    match req.file with
    | none => (s, .badRequest "No file received")
    | some file =>
      let s1 : ServerState := { s with chunkFiles :=
        (writeFile s.chunkFiles (chunkFileName uploadId req.chunkIndex) file.bytes now) }
      let key := storeKey uploadId
      let s2 : ServerState :=
        match storeGet s1.uploadStore key with
        | some _ => s1
        | none => { s1 with uploadStore := (storeSet s1.uploadStore key
            ⟨file.originalname, (file.bytes.length : Int), req.totalChunks, 0,
             "in_progress", now, none⟩) }
      match storeGet s2.uploadStore key with
      | none => (s2, .ok)
      | some entry =>
        let entry' := { entry with uploadedChunks := entry.uploadedChunks + 1 }
        let s3 : ServerState :=
          { s2 with uploadStore := storeSet s2.uploadStore key entry' }
        let s4 := if entry'.uploadedChunks = entry'.totalChunks
                  then trackUploadProgress s3 uploadId now else s3
        (s4, .ok)

inductive CompleteResult where
  | notFound
  | incomplete
  | serverError
  | ok
  deriving Repr, DecidableEq

/-- The assembly loop of the complete handler (server.ts lines 296-300),
reading `count` chunks starting at index `start` in ascending order.
`Except.error pb` models the rejected `readFile` of a missing chunk after the
write stream already holds the bytes `pb` of the chunks read before it. -/
def assembleCount (files : List FileEntry) (uploadId : String) (start : Nat) :
    Nat → Except (List Nat) (List Nat)
  | 0 => .ok []
  | Nat.succ k =>
    match readFile files (chunkFileName uploadId start) with
    | none => .error []
    | some b =>
      match assembleCount files uploadId (start + 1) k with
      | .ok rest => .ok (b ++ rest)
      | .error pb => .error (b ++ pb)

/-- `POST /api/upload/complete/:uploadId` (server.ts lines 272-343):
404 on an unknown session; 400 when the number of staging files whose name
starts with the uploadId differs from the stored `totalChunks`; otherwise
concatenate chunks `0 … totalChunks-1` in ascending index order into
`FINAL_DIR/fileName`, unlink the staging files, and mark the record
completed.  A missing chunk inside the loop rejects with 500 after the
stream already wrote the earlier chunks, with no cleanup. -/
def completeUpload (s : ServerState) (uploadId : String) (now : Nat) :
    ServerState × CompleteResult :=
  match storeGet s.uploadStore (storeKey uploadId) with
  | none => (s, .notFound)
  | some info =>
    let relevant := s.chunkFiles.filter (fun f => strStartsWith f.name uploadId)
    if relevant.length = info.totalChunks then
      match assembleCount s.chunkFiles uploadId 0 info.totalChunks with
      | .error pb =>
        ({ s with finalFiles := writeFile s.finalFiles info.fileName pb now },
         .serverError)
      | .ok bs =>
        ({ s with
            finalFiles := (writeFile s.finalFiles info.fileName bs now),
            chunkFiles := (s.chunkFiles.filter
              (fun f => ¬ strStartsWith f.name uploadId = true)),
            uploadStore := (storeSet s.uploadStore (storeKey uploadId)
              { info with status := "completed", endTime := some now,
                          uploadedChunks := info.totalChunks }) },
         .ok)
    else (s, .incomplete)

inductive DeleteResult where
  | notFound
  | ok
  deriving Repr, DecidableEq

/-- `DELETE /api/upload/:uploadId` (server.ts lines 471-495): 404 on an
unknown session; otherwise unlink every staging file whose name starts with
the uploadId, remove the record, and respond 200 `{success:true}`. -/
def deleteUpload (s : ServerState) (uploadId : String) :
    ServerState × DeleteResult :=
  match storeGet s.uploadStore (storeKey uploadId) with
  | none => (s, .notFound)
  | some _ =>
    ({ s with
        chunkFiles := (s.chunkFiles.filter
          (fun f => ¬ strStartsWith f.name uploadId = true)),
        uploadStore := (storeErase s.uploadStore (storeKey uploadId)) },
     .ok)

/-- `STALE_THRESHOLD` of the cleanup task: 30 minutes in ms. -/
def STALE_MS : Nat := 30 * 60 * 1000

/-- `cleanupIncompleteUploads` (server.ts lines 170-183): unlink every file
of `CHUNKS_DIR` whose mtime is older than 30 minutes.  It reads only file
mtimes — never the upload store — and deletes nothing else. -/
def cleanupIncompleteUploads (s : ServerState) (now : Nat) : ServerState :=
  { s with chunkFiles := (s.chunkFiles.filter
      (fun f => ¬ f.mtime < now - STALE_MS)) }

/-! ## The variant chunk handler of src/unnamed/part_003 -/

/-- `POST /api/upload/chunk/:uploadId` of the variant server
(part_003 lines 124-246): unlike server.ts it returns 404 when the uploadId
names no session (before writing anything), 507 when free disk space is
below the chunk size, and only then writes the staging file and increments
the counter.  `availableSpace` models `statfs` free bytes. -/
def putChunkV (s : ServerState) (uploadId : String) (req : ChunkRequest)
    (availableSpace : Nat) (now : Nat) : ServerState × ChunkResult :=
  match chunkMiddleware req with
  | some err => (s, err)
  | none =>
    match req.file with
    | none => (s, .badRequest "No file received")
    | some file =>
      match storeGet s.uploadStore (storeKey uploadId) with
      | none => (s, .notFound)
      | some entry =>
        if availableSpace < file.bytes.length then (s, .insufficientSpace)
        else
          ({ s with
              chunkFiles := (writeFile s.chunkFiles
                (chunkFileName uploadId req.chunkIndex) file.bytes now),
              uploadStore := (storeSet s.uploadStore (storeKey uploadId)
                { entry with uploadedChunks := entry.uploadedChunks + 1 }) },
           .ok)

/-! ## The final-path computation of the complete handler -/

/-- The segments of `FINAL_DIR` (`<UPLOAD_DIR>/final`, server.ts line 25),
abbreviated to its two trailing segments. -/
def FINAL_SEGS : List String := ["uploads", "final"]

/-- Node `path.join` segment normalization: empty and `"."` segments vanish,
`".."` pops the last accumulated segment. -/
def joinSegs : List String → List String → List String
  | acc, [] => acc
  | acc, seg :: rest =>
    if seg = "" ∨ seg = "." then joinSegs acc rest
    else if seg = ".." then joinSegs acc.dropLast rest
    else joinSegs (acc ++ [seg]) rest

/-- `path.join(FINAL_DIR, fileName)` (server.ts line 293) as its normalized
segment list. -/
def finalPathSegs (fileName : String) : List String :=
  joinSegs FINAL_SEGS ((splitOnCharAux '/' fileName.data []).map (fun l => String.mk l))

/-! ## Trace semantics: an interleaving of client calls -/

inductive Action where
  | init (uploadId fileName : String) (fileSize : Int) (totalChunks : Nat)
  | chunk (uploadId : String) (req : ChunkRequest)
  | complete (uploadId : String)
  | remove (uploadId : String)
  | cleanup
  deriving Repr

def runAction (s : ServerState) (a : Action) (now : Nat) : ServerState :=
  match a with
  | .init id nm sz total => (initUpload s id nm sz total now).1
  | .chunk id req => (putChunk s id req now).1
  | .complete id => (completeUpload s id now).1
  | .remove id => (deleteUpload s id).1
  | .cleanup => cleanupIncompleteUploads s now

/-- Run a timestamped sequence of requests against the server. -/
def run (s : ServerState) : List (Action × Nat) → ServerState
  | [] => s
  | (a, t) :: rest => run (runAction s a t) rest

/-! ## Concrete fixtures used by the counterexamples and witnesses -/

/-- A well-formed chunk request that all three validators accept:
declared `fileType` `text/plain` is in the allow-set and has no magic-number
rule, and the payload is non-empty and small. -/
def okReq (idx total : Nat) (bs : List Nat) : ChunkRequest :=
  ⟨idx, total, some "text/plain", none, some ⟨"a.txt", "text/plain", bs⟩⟩

/-- Session `u1` declared with 2 chunks, then two acknowledged uploads of
the same index 0. -/
def dupState : ServerState :=
  run emptyState
    [(.init "u1" "f.txt" 2 2, 0),
     (.chunk "u1" (okReq 0 2 [7]), 1),
     (.chunk "u1" (okReq 0 2 [8]), 2)]

/-- Session `u2` declared with 1 chunk, after one accepted chunk of index 0. -/
def oneChunkState : ServerState :=
  run emptyState
    [(.init "u2" "g.txt" 1 1, 0),
     (.chunk "u2" (okReq 0 1 [7]), 1)]

/-- Session `u` declared with 1 chunk, after its single chunk was accepted. -/
def completedByTracker : ServerState :=
  run emptyState
    [(.init "u" "f" 1 1, 0),
     (.chunk "u" (okReq 0 1 [7]), 1)]

/-- Session `u` declared with `fileSize = 5` but a single accepted chunk of
only 3 bytes. -/
def shortPayloadState : ServerState :=
  run emptyState
    [(.init "u" "f.bin" 5 1, 0),
     (.chunk "u" (okReq 0 1 [1, 2, 3]), 1)]

/-- A chunk request with index 1 whose file part claims `image/jpeg` but
whose payload does not begin with `FF D8 FF`. -/
def badMagicIdx1Req : ChunkRequest :=
  ⟨1, 3, some "image/jpeg", none, some ⟨"a.jpg", "image/jpeg", [0, 0, 0]⟩⟩

/-- Session `u` fully uploaded and already completed once. -/
def onceCompletedState : ServerState :=
  run emptyState
    [(.init "u" "f" 1 1, 0),
     (.chunk "u" (okReq 0 1 [7]), 1),
     (.complete "u", 2)]

/-- A live session `u`: its newest chunk was written 1 ms before the cleanup
run, but its first chunk is 30 min old. -/
def liveSessionState : ServerState :=
  ⟨[("upload:u", ⟨"f", 2, 2, 2, "in_progress", 0, none⟩)],
   [⟨"u-0", [1], 0⟩, ⟨"u-1", [2], 2000000⟩], []⟩

/-- Two sessions `ua` and `ub`, each with one staging chunk. -/
def twoSessionState : ServerState :=
  ⟨[("upload:ua", ⟨"f", 1, 1, 1, "in_progress", 0, none⟩),
    ("upload:ub", ⟨"g", 1, 1, 0, "in_progress", 0, none⟩)],
   [⟨"ua-0", [1], 0⟩, ⟨"ub-0", [2], 0⟩], []⟩

/-- A session one acknowledgement short of its declared total, used to drive
`trackUploadProgress` to the completed transition. -/
def almostDoneState : ServerState :=
  ⟨[("upload:u", ⟨"f", 1, 1, 1, "in_progress", 0, none⟩)], [], []⟩

/-- A two-chunk session whose staging files are exactly its two chunks, used
as the witness input for the assembly theorem. -/
def assemblyState : ServerState :=
  ⟨[("upload:u", ⟨"out", 3, 2, 2, "in_progress", 0, none⟩)],
   [⟨"u-0", [1], 0⟩, ⟨"u-1", [2, 3], 0⟩], []⟩

/-- The payloads of `assemblyState` by index. -/
def assemblyPayload (i : Nat) : List Nat := if i = 0 then [1] else [2, 3]

/-! ## Helper lemmas about the store and file primitives -/

theorem storeGet_storeErase_ne (st : List (String × UploadInfo)) (k k' : String)
    (h : ¬ k' = k) : storeGet (storeErase st k) k' = storeGet st k' := by
  induction st with
  | nil => rfl
  | cons p t ih =>
    by_cases hp : p.1 = k
    · have h2 : ¬ k = k' := fun hc => h hc.symm
      simp [storeErase, storeGet, hp, h2, ih]
    · by_cases hp' : p.1 = k'
      · simp [storeErase, storeGet, hp, hp', h]
      · simp [storeErase, storeGet, hp, hp', ih]

theorem storeGet_storeSet_self (st : List (String × UploadInfo)) (k : String)
    (v : UploadInfo) : storeGet (storeSet st k v) k = some v := by
  simp [storeGet, storeSet]

theorem storeGet_storeSet_ne (st : List (String × UploadInfo)) (k k' : String)
    (v : UploadInfo) (h : ¬ k' = k) :
    storeGet (storeSet st k v) k' = storeGet st k' := by
  have h2 : ¬ k = k' := fun hc => h hc.symm
  simp [storeGet, storeSet, h2, storeGet_storeErase_ne st k k' h]

theorem readFile_writeFile_self (files : List FileEntry) (nm : String)
    (bs : List Nat) (now : Nat) :
    readFile (writeFile files nm bs now) nm = some bs := by
  induction files with
  | nil => simp [writeFile, readFile]
  | cons f t ih =>
    by_cases hf : f.name = nm
    · simp [writeFile, readFile, hf]
    · simp [writeFile, readFile, hf, ih]

theorem eq_of_isPrefixOf_append (a b t : List Char) (h : a.isPrefixOf (b ++ t) = true)
    (hl : a.length = b.length) : a = b := by
  induction a generalizing b with
  | nil =>
    cases b with
    | nil => rfl
    | cons y ys => simp at hl
  | cons x xs ih =>
    cases b with
    | nil => simp at hl
    | cons y ys =>
      simp only [List.cons_append, List.isPrefixOf, Bool.and_eq_true, beq_iff_eq] at h
      simp only [List.length_cons, Nat.succ.injEq] at hl
      rw [h.1, ih ys h.2 hl]

theorem filter_not_filter_self (l : List FileEntry) (q : FileEntry → Bool) :
    (l.filter (fun f => ¬ q f = true)).filter (fun f => q f) = [] := by
  induction l with
  | nil => rfl
  | cons f t ih =>
    by_cases hf : q f = true
    · simp [List.filter_cons, hf, ih]
    · simp [List.filter_cons, hf, ih]

theorem str_data_append (a b : String) : (a ++ b).data = a.data ++ b.data := rfl

theorem assembleCount_ok (files : List FileEntry) (id : String) (p : Nat → List Nat) :
    ∀ (k start : Nat),
      (∀ i, i < k → readFile files (chunkFileName id (start + i)) = some (p (start + i))) →
      assembleCount files id start k =
        .ok (((List.range k).map (fun i => p (start + i))).flatten) := by
  intro k
  induction k with
  | zero => intro start _; simp [assembleCount]
  | succ n ih =>
    intro start h
    have h0 : readFile files (chunkFileName id start) = some (p start) := by
      have := h 0 (Nat.succ_pos n)
      simpa using this
    have hrest := ih (start + 1) (fun i hi => by
      have hx := h (i + 1) (Nat.succ_lt_succ hi)
      have he : start + (i + 1) = start + 1 + i := by omega
      rwa [he] at hx)
    simp only [assembleCount, h0, hrest]
    congr 1
    rw [List.range_succ_eq_map]
    simp only [List.map_cons, List.map_map, List.flatten, Nat.add_zero]
    congr 1
    congr 1
    apply List.map_congr_left
    intro a _
    have : start + 1 + a = start + (a + 1) := by omega
    simp [Function.comp, this]

/-! ## The claims -/

/-- C1: the claim says the number of acknowledged distinct chunk indices
never exceeds `declared.totalChunks`, and status reaches Completed iff every
index in `[0, totalChunks)` has been acknowledged.  The code violates both
conjuncts: in `dupState` (totalChunks = 2) two acknowledgements of index 0
alone drive `trackUploadProgress` to mark the session completed although
index 1 was never received; in `oneChunkState` (totalChunks = 1) a further
chunk of index 5 is acknowledged with 200, so two distinct indices are
acknowledged against a declared total of one. -/
theorem claim1_counter_code_bug :
    ((storeGet dupState.uploadStore (storeKey "u1")).map (·.status) =
        some "completed" ∧
      readFile dupState.chunkFiles (chunkFileName "u1" 1) = none) ∧
    ((putChunk oneChunkState "u2" (okReq 5 1 [9]) 2).2 = .ok ∧
      (putChunk oneChunkState "u2" (okReq 5 1 [9]) 2).1.chunkFiles.length = 2 ∧
      (storeGet oneChunkState.uploadStore (storeKey "u2")).map (·.totalChunks) =
        some 1) := by
  decide

/-- C2, counterexample: after the single declared chunk of session `u` is
acknowledged, the store records status `"completed"` while the final
directory is empty — no assembled Final Object exists, contradicting the
claim `status = Completed ⇒ a Final Object exists`. -/
theorem claim2_completed_without_final_cex :
    (storeGet completedByTracker.uploadStore (storeKey "u")).map (·.status) =
      some "completed" ∧
    completedByTracker.finalFiles = [] := by
  decide

/-- C2, amended: whenever `trackUploadProgress` yields a record with status
`"completed"`, either the record was already completed or its
acknowledgement counter equals `totalChunks` (not: every index was
received), and the transition touches no file — in particular it creates no
Final Object. -/
theorem claim2_tracker_amended (s : ServerState) (id : String) (now : Nat)
    (info' : UploadInfo)
    (h1 : storeGet (trackUploadProgress s id now).uploadStore (storeKey id) =
      some info')
    (h2 : info'.status = "completed") :
    ((trackUploadProgress s id now).finalFiles = s.finalFiles ∧
      (trackUploadProgress s id now).chunkFiles = s.chunkFiles) ∧
    ∃ info, storeGet s.uploadStore (storeKey id) = some info ∧
      (info.status = "completed" ∨ info.uploadedChunks = info.totalChunks) := by
  rcases hg : storeGet s.uploadStore (storeKey id) with _ | info
  · have hT : trackUploadProgress s id now = s := by
      simp [trackUploadProgress, hg]
    rw [hT, hg] at h1
    exact absurd h1 (by simp)
  · by_cases hc : info.uploadedChunks = info.totalChunks
    · have hT : trackUploadProgress s id now =
          { s with uploadStore := (storeSet s.uploadStore (storeKey id)
            { info with status := "completed", endTime := some now }) } := by
        simp [trackUploadProgress, hg, hc]
      exact ⟨by rw [hT]; exact ⟨rfl, rfl⟩, ⟨info, rfl, Or.inr hc⟩⟩
    · have hT : trackUploadProgress s id now = s := by
        simp [trackUploadProgress, hg, hc]
      rw [hT, hg] at h1
      have he : info = info' := Option.some.inj h1
      exact ⟨by rw [hT]; exact ⟨rfl, rfl⟩, ⟨info, rfl, Or.inl (he ▸ h2)⟩⟩

/-- C2, witness for the amended theorem at a concrete transition: session
`u` of `almostDoneState` has counter 1 = totalChunks, so the tracker marks
it completed; the theorem applies and its conclusions evaluate. -/
theorem claim2_tracker_amended_witness :
    ((trackUploadProgress almostDoneState "u" 4).finalFiles =
        almostDoneState.finalFiles ∧
      (trackUploadProgress almostDoneState "u" 4).chunkFiles =
        almostDoneState.chunkFiles) ∧
    ∃ info, storeGet almostDoneState.uploadStore (storeKey "u") = some info ∧
      (info.status = "completed" ∨ info.uploadedChunks = info.totalChunks) :=
  claim2_tracker_amended almostDoneState "u" 4
    ⟨"f", 1, 1, 1, "completed", 0, some 4⟩ (by decide) (by decide)

/-- C5, counterexample: `init` with declared size 0, an empty file name and
an arbitrary chunk total responds 200 with a handle and creates a session
record, where the claim requires a 400 response and no record. -/
theorem claim5_no_validation_cex :
    (initUpload emptyState "u" "" 0 7 0).2 = .ok "u" ∧
    storeGet (initUpload emptyState "u" "" 0 7 0).1.uploadStore (storeKey "u") =
      some ⟨"", 0, 7, 0, "in_progress", 0, none⟩ := by
  decide

/-- C5, amended: `init` performs no validation of the declared fields at
all — for every declaration (any size, any name, any chunk total) it creates
a session record with status `"in_progress"` and counter 0, and responds
200 with the fresh handle. -/
theorem claim5_init_amended (s : ServerState) (id nm : String) (sz : Int)
    (total now : Nat) :
    initUpload s id nm sz total now =
      ({ s with uploadStore := (storeSet s.uploadStore (storeKey id)
          ⟨nm, sz, total, 0, "in_progress", now, none⟩) }, .ok id) := rfl

/-- C8, counterexample: in `liveSessionState` the session's newest chunk is
1 ms old at the cleanup run (the session is live by any reading of last
activity), yet the run deletes its other chunk `u-0`, whose mtime is just
over 30 minutes old — the cleanup task deletes chunks of live sessions,
contradicting the claim that a session touched more recently than
STALE_THRESHOLD is never reaped. -/
theorem claim8_live_chunk_reaped_cex :
    (cleanupIncompleteUploads liveSessionState 2000001).chunkFiles =
      [⟨"u-1", [2], 2000000⟩] ∧
    readFile (cleanupIncompleteUploads liveSessionState 2000001).chunkFiles
      "u-0" = none ∧
    2000001 - 2000000 < STALE_MS ∧
    (cleanupIncompleteUploads liveSessionState 2000001).uploadStore =
      liveSessionState.uploadStore := by
  decide

/-- C8, amended: each cleanup run keeps exactly the staging chunk files
whose mtime is within 30 minutes of the run — a file older than that is
deleted even when its session shows more recent activity — and it never
modifies the upload store or the final directory; in particular no session
record is ever reaped by the task. -/
theorem claim8_cleanup_amended (s : ServerState) (now : Nat) (f : FileEntry) :
    ((cleanupIncompleteUploads s now).uploadStore = s.uploadStore ∧
      (cleanupIncompleteUploads s now).finalFiles = s.finalFiles) ∧
    (f ∈ (cleanupIncompleteUploads s now).chunkFiles ↔
      f ∈ s.chunkFiles ∧ ¬ f.mtime < now - STALE_MS) := by
  refine ⟨⟨rfl, rfl⟩, ?_⟩
  simp [cleanupIncompleteUploads, List.mem_filter]

/-- C8, witness: the amended theorem applied to the live-session state and
its fresh chunk. -/
theorem claim8_cleanup_amended_witness :
    ((cleanupIncompleteUploads liveSessionState 2000001).uploadStore =
        liveSessionState.uploadStore ∧
      (cleanupIncompleteUploads liveSessionState 2000001).finalFiles =
        liveSessionState.finalFiles) ∧
    ((⟨"u-1", [2], 2000000⟩ : FileEntry) ∈
        (cleanupIncompleteUploads liveSessionState 2000001).chunkFiles ↔
      (⟨"u-1", [2], 2000000⟩ : FileEntry) ∈ liveSessionState.chunkFiles ∧
        ¬ (2000000 : Nat) < 2000001 - STALE_MS) :=
  claim8_cleanup_amended liveSessionState 2000001 ⟨"u-1", [2], 2000000⟩

/-- C3, counterexample: session `u` declared `fileSize = 5` but its single
accepted chunk has 3 bytes; `complete` succeeds and the assembled object has
byte length 3 ≠ 5, so the final object's length does not equal
`declared.fileSize` as the claim states. -/
theorem claim3_length_cex :
    (completeUpload shortPayloadState "u" 3).2 = .ok ∧
    readFile (completeUpload shortPayloadState "u" 3).1.finalFiles "f.bin" =
      some [1, 2, 3] ∧
    (storeGet shortPayloadState.uploadStore (storeKey "u")).map (·.fileSize) =
      some 5 ∧
    ¬ (([1, 2, 3] : List Nat).length : Int) = 5 := by
  decide

/-- C3, amended: when every chunk `0 … totalChunks-1` of the session is
present in the staging directory (and they are exactly the staging files
with the session's prefix), `complete` succeeds and the assembled object is
the concatenation of the chunk payloads in ascending index order, so its
byte length is the sum of the payload lengths — equal to
`declared.fileSize` only when the declaration happens to match. -/
theorem claim3_assembly_amended (s : ServerState) (id : String)
    (info : UploadInfo) (p : Nat → List Nat) (now : Nat)
    (hs : storeGet s.uploadStore (storeKey id) = some info)
    (hlen : (s.chunkFiles.filter (fun f => strStartsWith f.name id)).length =
      info.totalChunks)
    (hall : ∀ i, i < info.totalChunks →
      readFile s.chunkFiles (chunkFileName id i) = some (p i)) :
    (completeUpload s id now).2 = .ok ∧
    readFile (completeUpload s id now).1.finalFiles info.fileName =
      some (((List.range info.totalChunks).map p).flatten) ∧
    (((List.range info.totalChunks).map p).flatten).length =
      ((List.range info.totalChunks).map (fun i => (p i).length)).sum := by
  have hasm : assembleCount s.chunkFiles id 0 info.totalChunks =
      .ok (((List.range info.totalChunks).map p).flatten) := by
    have h' := assembleCount_ok s.chunkFiles id p info.totalChunks 0
      (fun i hi => by simpa using hall i hi)
    simpa using h'
  refine ⟨?_, ?_, ?_⟩
  · simp [completeUpload, hs, hlen, hasm]
  · simp [completeUpload, hs, hlen, hasm, readFile_writeFile_self]
  · simp only [List.length_flatten, List.map_map]
    rfl

/-- C3, witness: the amended theorem applied to the two-chunk session of
`assemblyState`, whose payloads are `[1]` and `[2, 3]`. -/
theorem claim3_assembly_amended_witness :
    (completeUpload assemblyState "u" 9).2 = .ok ∧
    readFile (completeUpload assemblyState "u" 9).1.finalFiles "out" =
      some (((List.range 2).map assemblyPayload).flatten) ∧
    (((List.range 2).map assemblyPayload).flatten).length =
      ((List.range 2).map (fun i => (assemblyPayload i).length)).sum :=
  claim3_assembly_amended assemblyState "u" ⟨"out", 3, 2, 2, "in_progress", 0, none⟩
    assemblyPayload 9 (by decide) (by decide) (by decide)

/-- C4, counterexample: the magic-number middleware rejects a chunk of index
1 whose file part declares `image/jpeg` with a payload not starting
`FF D8 FF`, although the claim says chunks with index > 0 are not subject to
the magic-number check; the chunk route 400s and leaves the state
unchanged. -/
theorem claim4_index_cex :
    chunkMiddleware badMagicIdx1Req = some (.badRequest "Invalid file format") ∧
    badMagicIdx1Req.chunkIndex = 1 ∧
    putChunk emptyState "u" badMagicIdx1Req 0 =
      (emptyState, .badRequest "Invalid file format") := by
  decide

/-- C4, amended: the magic-number check runs on every chunk — the middleware
verdict is invariant under changing the chunk index — and, keyed on the file
part's MIME subtype, it accepts exactly when the subtype has no entry in the
magic table or the leading payload bytes equal the table entry
(jpeg `FF D8 FF`, png `89 50 4E 47`, gif `47 49 46 38`,
mp4 `00 00 00 20 66 74 79 70`, webm `1A 45 DF A3`). -/
theorem claim4_magic_amended (req : ChunkRequest) (i : Nat) (f : FilePart)
    (hf : req.file = some f) :
    chunkMiddleware { req with chunkIndex := i } = chunkMiddleware req ∧
    (maliciousFileDetector req = none ↔
      (magicOf (mimeSubtype f.mimetype) = none ∨
        ∃ mg, magicOf (mimeSubtype f.mimetype) = some mg ∧
          f.bytes.take mg.length = mg)) := by
  constructor
  · rfl
  · simp only [maliciousFileDetector, hf]
    cases hmg : magicOf (mimeSubtype f.mimetype) with
    | none => simp
    | some mg =>
      by_cases hb : f.bytes.take mg.length = mg
      · simp [hb]
      · simp [hb]

/-- C4, witness: the amended theorem applied to the rejected index-1 jpeg
request. -/
theorem claim4_magic_amended_witness :
    chunkMiddleware { badMagicIdx1Req with chunkIndex := 0 } =
      chunkMiddleware badMagicIdx1Req ∧
    (maliciousFileDetector badMagicIdx1Req = none ↔
      (magicOf (mimeSubtype "image/jpeg") = none ∨
        ∃ mg, magicOf (mimeSubtype "image/jpeg") = some mg ∧
          ([0, 0, 0] : List Nat).take mg.length = mg)) :=
  claim4_magic_amended badMagicIdx1Req 0 ⟨"a.jpg", "image/jpeg", [0, 0, 0]⟩ rfl

/-- C6, counterexample: a valid chunk request for the unknown session
`ghost` is acknowledged with 200 and a fresh session record is created from
the chunk metadata, where the claim requires a 404 response and an unchanged
store. -/
theorem claim6_unknown_session_cex :
    (putChunk emptyState "ghost" (okReq 0 3 [7]) 5).2 = .ok ∧
    storeGet (putChunk emptyState "ghost" (okReq 0 3 [7]) 5).1.uploadStore
        (storeKey "ghost") =
      some ⟨"a.txt", 1, 3, 1, "in_progress", 5, none⟩ := by
  decide

/-- C6, amended: on a putChunk whose uploadId names no session, the main
server (src/backend/src/server.ts) creates a fresh record initialized from
the chunk metadata and acknowledges with 200 (counter 1 after the
acknowledgement); only the variant implementation (src/unnamed/part_003)
responds 404 and leaves the state unchanged. -/
theorem claim6_unknown_session_amended (s : ServerState) (id : String)
    (req : ChunkRequest) (f : FilePart) (avail now : Nat)
    (hm : chunkMiddleware req = none) (hf : req.file = some f)
    (hs : storeGet s.uploadStore (storeKey id) = none) :
    putChunkV s id req avail now = (s, .notFound) ∧
    (putChunk s id req now).2 = .ok ∧
    ∃ info, storeGet (putChunk s id req now).1.uploadStore (storeKey id) =
      some info ∧ info.uploadedChunks = 1 ∧ info.fileName = f.originalname := by
  refine ⟨by simp [putChunkV, hm, hf, hs], ?_, ?_⟩
  · simp only [putChunk, hm, hf, hs, storeGet_storeSet_self]
  · simp only [putChunk, hm, hf, hs, storeGet_storeSet_self, Nat.zero_add]
    by_cases ht : (1 : Nat) = req.totalChunks
    · rw [if_pos ht]
      simp only [trackUploadProgress, storeGet_storeSet_self]
      rw [if_pos ht]
      exact ⟨_, storeGet_storeSet_self .., rfl, rfl⟩
    · rw [if_neg ht]
      exact ⟨_, storeGet_storeSet_self .., rfl, rfl⟩

/-- C6, witness: the amended theorem applied to the `ghost` request of the
counterexample. -/
theorem claim6_unknown_session_amended_witness :
    putChunkV emptyState "ghost" (okReq 0 3 [7]) 100 5 =
      (emptyState, .notFound) ∧
    (putChunk emptyState "ghost" (okReq 0 3 [7]) 5).2 = .ok ∧
    ∃ info, storeGet (putChunk emptyState "ghost" (okReq 0 3 [7]) 5).1.uploadStore
      (storeKey "ghost") = some info ∧ info.uploadedChunks = 1 ∧
      info.fileName = "a.txt" :=
  claim6_unknown_session_amended emptyState "ghost" (okReq 0 3 [7])
    ⟨"a.txt", "text/plain", [7]⟩ 100 5 (by decide) rfl rfl

/-- C7, counterexample: after session `u`'s single chunk is uploaded, the
first `complete` succeeds, but repeating `complete` on the same handle
responds 400 Incomplete instead of returning the current status — `complete`
is not idempotent, contrary to the claim. -/
theorem claim7_not_idempotent_cex :
    (completeUpload completedByTracker "u" 2).2 = .ok ∧
    (completeUpload onceCompletedState "u" 3).2 = .incomplete ∧
    (completeUpload onceCompletedState "u" 3).1 = onceCompletedState := by
  decide

/-- C7, amended: `complete` is not idempotent — a successful `complete`
unlinks every staging chunk with the session's prefix, so any repeated
`complete` on the same handle (with a positive declared chunk total) finds
zero staging files and responds 400 Incomplete, leaving the state
unchanged. -/
theorem claim7_repeat_complete_amended (s s' : ServerState) (id : String)
    (info : UploadInfo) (now now' : Nat)
    (hs : storeGet s.uploadStore (storeKey id) = some info)
    (hn : 1 ≤ info.totalChunks)
    (hc : completeUpload s id now = (s', .ok)) :
    completeUpload s' id now' = (s', .incomplete) := by
  simp only [completeUpload, hs] at hc
  by_cases hl : (s.chunkFiles.filter (fun f => strStartsWith f.name id)).length =
      info.totalChunks
  · rw [if_pos hl] at hc
    cases ha : assembleCount s.chunkFiles id 0 info.totalChunks with
    | error pb =>
      rw [ha] at hc
      simp at hc
    | ok bs =>
      rw [ha] at hc
      have hs' : s' =
          { s with
              finalFiles := (writeFile s.finalFiles info.fileName bs now),
              chunkFiles := (s.chunkFiles.filter
                (fun f => ¬ strStartsWith f.name id = true)),
              uploadStore := (storeSet s.uploadStore (storeKey id)
                { info with status := "completed", endTime := some now,
                            uploadedChunks := info.totalChunks }) } := by
        have := congrArg Prod.fst hc
        exact this.symm
      rw [hs']
      simp only [completeUpload, storeGet_storeSet_self]
      have hempty : ((s.chunkFiles.filter
            (fun f => ¬ strStartsWith f.name id = true)).filter
              (fun f => strStartsWith f.name id)) = [] :=
        filter_not_filter_self s.chunkFiles (fun f => strStartsWith f.name id)
      rw [hempty]
      have hne : ¬ (([] : List FileEntry).length = info.totalChunks) := by
        simp only [List.length_nil]
        omega
      rw [if_neg hne]
  · rw [if_neg hl] at hc
    simp at hc

/-- C7, witness: the amended theorem applied to the completed session of the
counterexample. -/
theorem claim7_repeat_complete_amended_witness :
    completeUpload onceCompletedState "u" 3 = (onceCompletedState, .incomplete) :=
  claim7_repeat_complete_amended completedByTracker onceCompletedState "u"
    ⟨"f", 1, 1, 1, "completed", 0, some 1⟩ 2 3 (by decide) (by decide) (by decide)

/-- C9: the claim says the stored file name is sanitized so assembly always
stays strictly inside the final directory.  The code stores the
client-supplied name verbatim at init, and the complete handler's
`path.join(FINAL_DIR, fileName)` for the name `"../evil.txt"` normalizes to
a path outside the final directory — a path traversal the claim rules
out. -/
theorem claim9_path_traversal_code_bug :
    (storeGet (initUpload emptyState "u" "../evil.txt" 1 1 0).1.uploadStore
        (storeKey "u")).map (·.fileName) = some "../evil.txt" ∧
    finalPathSegs "../evil.txt" = ["uploads", "evil.txt"] ∧
    FINAL_SEGS.isPrefixOf (finalPathSegs "../evil.txt") = false := by
  decide

/-- C10: `DELETE /api/upload/:uploadId` on an existing session responds
success, removes exactly that session's record (every other key reads
unchanged), unlinks exactly the staging files whose name starts with the
uploadId, leaves the final directory untouched, and — because staging chunk
names are `otherId-index` and handles are fixed-length UUIDs (equal length,
distinct) — never touches another session's staging files. -/
theorem claim10_delete_frame (s : ServerState) (id : String) (info : UploadInfo)
    (hs : storeGet s.uploadStore (storeKey id) = some info) :
    (deleteUpload s id).2 = .ok ∧
    (deleteUpload s id).1.uploadStore = storeErase s.uploadStore (storeKey id) ∧
    (deleteUpload s id).1.chunkFiles =
      s.chunkFiles.filter (fun f => ¬ strStartsWith f.name id = true) ∧
    (deleteUpload s id).1.finalFiles = s.finalFiles ∧
    (∀ k, ¬ k = storeKey id →
      storeGet (deleteUpload s id).1.uploadStore k = storeGet s.uploadStore k) ∧
    (∀ f, f ∈ s.chunkFiles → ∀ oid j, f.name = chunkFileName oid j →
      oid.length = id.length → ¬ oid = id →
      f ∈ (deleteUpload s id).1.chunkFiles) := by
  have hD : deleteUpload s id =
      ({ s with
          chunkFiles := (s.chunkFiles.filter
            (fun f => ¬ strStartsWith f.name id = true)),
          uploadStore := (storeErase s.uploadStore (storeKey id)) }, .ok) := by
    simp [deleteUpload, hs]
  refine ⟨by rw [hD], by rw [hD], by rw [hD], by rw [hD], ?_, ?_⟩
  · intro k hk
    rw [hD]
    exact storeGet_storeErase_ne s.uploadStore (storeKey id) k hk
  · intro f hmem oid j hname hlen hne
    rw [hD]
    have hfalse : strStartsWith f.name id = false := by
      rw [hname]
      by_contra hcon
      have htrue : strStartsWith (chunkFileName oid j) id = true := by
        revert hcon
        cases strStartsWith (chunkFileName oid j) id <;> simp
      have hdata : (chunkFileName oid j).data =
          oid.data ++ (("-" ++ toString j).data) := by
        simp only [chunkFileName, str_data_append, List.append_assoc]
      rw [strStartsWith, hdata] at htrue
      have hlen' : id.data.length = oid.data.length := hlen.symm
      exact hne (congrArg String.mk
        (eq_of_isPrefixOf_append id.data oid.data _ htrue hlen')).symm
    refine List.mem_filter.mpr ⟨hmem, ?_⟩
    simp [hfalse]

/-- C10, witness: deleting session `ua` of `twoSessionState` succeeds and
filters exactly the `ua`-prefixed staging files. -/
theorem claim10_delete_frame_witness :
    (deleteUpload twoSessionState "ua").2 = .ok ∧
    (deleteUpload twoSessionState "ua").1.chunkFiles =
      twoSessionState.chunkFiles.filter
        (fun f => ¬ strStartsWith f.name "ua" = true) :=
  ⟨(claim10_delete_frame twoSessionState "ua"
      ⟨"f", 1, 1, 1, "in_progress", 0, none⟩ (by decide)).1,
   (claim10_delete_frame twoSessionState "ua"
      ⟨"f", 1, 1, 1, "in_progress", 0, none⟩ (by decide)).2.2.1⟩

end UploadServer
